import Mathlib

/-!
Verification of `nx_parallel/algorithms/vitality.py` (`closeness_vitality`).

The source is a thin parallel wrapper: an isinstance-chain adapter unwrapping
four parallel-graph wrapper types, a single-node vitality evaluation
`wiener_index - nx.wiener_index(G.subgraph(set(G) - {node}))`, and an
all-nodes parallel map collecting `(v, vitality(v))` pairs into a dict.

External collaborators (networkx's `wiener_index`, `subgraph`, and the wrapper
classes from `nx_parallel.classes.graph`, which are not part of the provided
source) are modelled from the spec, as noted on each definition.

Numeric model: exact integer edge weights and distances (`WithTop ℤ`, with `⊤`
for "no path"), lifted to a symbolic IEEE-style value type `PyFloat`
(finite / +inf / -inf / NaN) at the points where the Python code does float
arithmetic.  All concrete values appearing in the claims are exactly
representable, so no rounding behaviour is lost.
-/

/-- A plain networkx-style graph: an ordered, duplicate-free node list,
an undirected edge list, and per-attribute-name integer edge weights
(keyed symmetrically by the unordered endpoint pair). -/
structure NXGraph where
  nodes : List ℕ
  nodup : nodes.Nodup
  edges : List (ℕ × ℕ)
  wfun : String → ℕ → ℕ → ℤ

/-- Nodes `u` and `v` are adjacent: the undirected edge list holds the pair
in either orientation. -/
def NXGraph.adjB (g : NXGraph) (u v : ℕ) : Bool :=
  decide ((u, v) ∈ g.edges) || decide ((v, u) ∈ g.edges)

/-- Modelled from the spec: the weight of an edge under an optional
edge-weight attribute name; no weighting means hop count (weight 1). -/
def edgeWeight (g : NXGraph) (weight : Option String) (u v : ℕ) : ℤ :=
  match weight with
  | none => 1
  | some s => g.wfun s (min u v) (max u v)

/-- One Bellman-Ford relaxation round of the tentative-distance vector. -/
def bfRelax (g : NXGraph) (weight : Option String) (d : ℕ → WithTop ℤ) :
    ℕ → WithTop ℤ :=
  fun v =>
    (g.nodes.map
      (fun x => if g.adjB x v then d x + (edgeWeight g weight x v : ℤ) else ⊤)).foldr
      min (d v)

/-- Modelled from the spec: the shortest-path distance from `u` to `v`
(least total weight over walks with at most `|V|` edges; `⊤` when `v` is
unreachable from `u`).  This is the distance notion the external
shortest-path library computes, consumed as a black box. -/
def spDist (g : NXGraph) (weight : Option String) (u v : ℕ) : WithTop ℤ :=
  ((bfRelax g weight)^[g.nodes.length] (fun x => if x = u then 0 else ⊤)) v

/-- All unordered pairs of a list, each taken once, in list order. -/
def listPairs : List ℕ → List (ℕ × ℕ)
  | [] => []
  | x :: xs => xs.map (fun y => (x, y)) ++ listPairs xs

/-- Modelled from the spec (glossary): the Wiener index is the sum of
shortest-path distances over all (unordered) pairs of nodes; an unreachable
pair makes it infinite.  Stands for the external `nx.wiener_index`
collaborator. -/
def nx.wiener_index (g : NXGraph) (weight : Option String) : WithTop ℤ :=
  ((listPairs g.nodes).map (fun p => spDist g weight p.1 p.2)).sum

/-- An induced subgraph: the nodes of `g` satisfying `p`, together with the
edges of `g` whose endpoints both survive.  Stands for the external
`G.subgraph(...)` collaborator. -/
def NXGraph.subgraph (g : NXGraph) (p : ℕ → Bool) : NXGraph where
  nodes := g.nodes.filter p
  nodup := g.nodup.filter p
  edges := g.edges.filter
    (fun e => decide (e.1 ∈ g.nodes.filter p) && decide (e.2 ∈ g.nodes.filter p))
  wfun := g.wfun

/-- The membership predicate of the Python set `set(G) - {v}`. -/
def setMinus (g : NXGraph) (v : ℕ) : ℕ → Bool :=
  fun x => decide (x ∈ g.nodes) && decide (x ≠ v)

/-- Modelled from the spec (glossary): the induced subgraph `G - v` on all
nodes except `v` — the node subset together with all edges of the original
graph whose both endpoints lie in that subset. -/
def NXGraph.removeNode (g : NXGraph) (v : ℕ) : NXGraph where
  nodes := g.nodes.filter (fun x => decide (x ≠ v))
  nodup := g.nodup.filter _
  edges := g.edges.filter
    (fun e => decide (e.1 ∈ g.nodes.filter (fun x => decide (x ≠ v))) &&
      decide (e.2 ∈ g.nodes.filter (fun x => decide (x ≠ v))))
  wfun := g.wfun

/-- Symbolic model of the Python float values the function manipulates:
exactly representable finite values, the two infinities, and NaN. -/
inductive PyFloat where
  | fin (q : ℤ)
  | inf
  | ninf
  | nan
deriving DecidableEq, Repr

/-- IEEE-style subtraction on symbolic float values (Python's `-` on floats):
`inf - inf = nan`, `finite - inf = -inf`, and so on. -/
def PyFloat.sub : PyFloat → PyFloat → PyFloat
  | .fin a, .fin b => .fin (a - b)
  | .fin _, .inf => .ninf
  | .fin _, .ninf => .inf
  | .inf, .fin _ => .inf
  | .inf, .inf => .nan
  | .inf, .ninf => .inf
  | .ninf, .fin _ => .ninf
  | .ninf, .inf => .ninf
  | .ninf, .ninf => .nan
  | .nan, _ => .nan
  | _, .nan => .nan

/-- The float value `nx.wiener_index` returns: its exact sum when every pair
is reachable, `+inf` otherwise. -/
def toPyFloat : WithTop ℤ → PyFloat
  | ⊤ => .inf
  | (q : ℤ) => .fin q

/-- Modelled from the spec: a graph argument is either already plain or wrapped
in one of the four parallel-aware decorator types recognised by the adapter
(`ParallelMultiDiGraph`, `ParallelMultiGraph`, `ParallelDiGraph`,
`ParallelGraph`, each holding an underlying plain graph). -/
inductive PGraph where
  | plain (g : NXGraph)
  | parallelMultiDiGraph (g : NXGraph)
  | parallelMultiGraph (g : NXGraph)
  | parallelDiGraph (g : NXGraph)
  | parallelGraph (g : NXGraph)

/-- The adapter's isinstance chain: each of the four wrapper cases binds the
local `I` to `<Wrapper>.to_networkx(G)` (modelled from the spec: the wrapper's
conversion returns the underlying plain graph).  For a plain input no branch
fires and `I` stays unbound, which this embedding records as `none`. -/
def unwrapI : PGraph → Option NXGraph
  | .plain _ => none
  | .parallelMultiDiGraph g => some g
  | .parallelMultiGraph g => some g
  | .parallelDiGraph g => some g
  | .parallelGraph g => some g

/-- Modelled from the spec: the wrapper types are decorators, so the read
operations the source applies to `G` itself (`set(G)` and `G.subgraph`) act on
the underlying plain graph; on a plain input they act on it directly. -/
def PGraph.graphOf : PGraph → NXGraph
  | .plain g => g
  | .parallelMultiDiGraph g => g
  | .parallelMultiGraph g => g
  | .parallelDiGraph g => g
  | .parallelGraph g => g

/-- The one failure this fragment itself can raise: Python's
`UnboundLocalError` on the adapter's local `I`. -/
inductive PyErr where
  | unboundLocalI
deriving DecidableEq, Repr

/-- What a call returns: a single float (single-node path) or a dict of
per-node floats in collection order (all-nodes path). -/
inductive CVResult where
  | scalar (x : PyFloat)
  | dict (entries : List (ℕ × PyFloat))
deriving DecidableEq, Repr

/-- Embedding of `closeness_vitality(G, node, weight, wiener_index)`.

`collect` is the order in which the parallel map's `(v, vitality(v))` pairs
are collected into the result dict, modelling arbitrary completion order;
faithfulness requires `collect` to be a permutation of the node iteration
order `for v in I`, which the theorems take as a hypothesis.  The source's
recursive call `closeness_vitality(I, v, weight=weight, wiener_index=wi)`
always takes the single-node branch, so it is inlined in the all-nodes branch;
theorem `closeness_vitality_single_call` proves the inlining exact. -/
def closeness_vitality (G : PGraph) (node : Option ℕ) (weight : Option String)
    (wiener_index : Option PyFloat) (collect : List ℕ) : Except PyErr CVResult :=
  let wiE : Except PyErr PyFloat :=
    match wiener_index with
    | some w => .ok w
    | none =>
      match unwrapI G with
      | none => .error .unboundLocalI
      | some i => .ok (toPyFloat (nx.wiener_index i weight))
  match wiE with
  | .error e => .error e
  | .ok w =>
    match node with
    | some v =>
      .ok (.scalar (PyFloat.sub w (toPyFloat (nx.wiener_index
        ((PGraph.graphOf G).subgraph (setMinus (PGraph.graphOf G) v)) weight))))
    | none =>
      match unwrapI G with
      | none => .error .unboundLocalI
      | some i =>
        .ok (.dict (collect.map (fun v =>
          (v, PyFloat.sub w (toPyFloat (nx.wiener_index
            (i.subgraph (setMinus i v)) weight))))))

/-- State-passing rendering of `closeness_vitality`: the input graph object is
threaded explicitly through every operation the source performs on it (the
isinstance chain with `to_networkx`, `nx.wiener_index`, `set(G)` and
`G.subgraph`, node iteration), each of which is a read returning the object
unchanged; the final graph state is returned alongside the result, making the
claim that the call never mutates its input graph a provable statement. -/
def closeness_vitality_st (G0 : PGraph) (node : Option ℕ) (weight : Option String)
    (wiener_index : Option PyFloat) (collect : List ℕ) :
    PGraph × Except PyErr CVResult :=
  let (G, I) := (G0, unwrapI G0)
  let (G, wiE) :=
    (G, (match wiener_index with
         | some w => Except.ok w
         | none =>
           match I with
           | none => Except.error PyErr.unboundLocalI
           | some i => Except.ok (toPyFloat (nx.wiener_index i weight)) : Except PyErr PyFloat))
  match wiE with
  | .error e => (G, .error e)
  | .ok w =>
    match node with
    | some v =>
      let (G, sg) := (G, (PGraph.graphOf G).subgraph (setMinus (PGraph.graphOf G) v))
      (G, .ok (.scalar (PyFloat.sub w (toPyFloat (nx.wiener_index sg weight)))))
    | none =>
      match I with
      | none => (G, .error PyErr.unboundLocalI)
      | some i =>
        (G, .ok (.dict (collect.map (fun v =>
          (v, PyFloat.sub w (toPyFloat (nx.wiener_index
            (i.subgraph (setMinus i v)) weight)))))))

/-- The 3-cycle graph 0-1-2-0 (every weight attribute gives each edge
weight 1). -/
def cycle3 : NXGraph where
  nodes := [0, 1, 2]
  nodup := by decide
  edges := [(0, 1), (1, 2), (2, 0)]
  wfun := fun _ _ _ => 1

/-- The 3-path graph 0-1-2: removing node 1 disconnects the rest. -/
def path3 : NXGraph where
  nodes := [0, 1, 2]
  nodup := by decide
  edges := [(0, 1), (1, 2)]
  wfun := fun _ _ _ => 1

/-- A disconnected graph: components {0,1} and {2,3}. -/
def disc4 : NXGraph where
  nodes := [0, 1, 2, 3]
  nodup := by decide
  edges := [(0, 1), (2, 3)]
  wfun := fun _ _ _ => 1

/-- Two graphs with the same nodes, edges and weights are equal. -/
theorem NXGraph.eq_of_fields {g1 g2 : NXGraph} (h1 : g1.nodes = g2.nodes)
    (h2 : g1.edges = g2.edges) (h3 : g1.wfun = g2.wfun) : g1 = g2 := by
  cases g1; cases g2; dsimp at h1 h2 h3; subst h1; subst h2; subst h3; rfl

/-- The subgraph the source builds with the Python set `set(G) - {v}` is the
glossary's induced subgraph `G - v`. -/
theorem subgraph_setMinus (g : NXGraph) (v : ℕ) :
    g.subgraph (setMinus g v) = g.removeNode v := by
  have hn : g.nodes.filter (setMinus g v) =
      g.nodes.filter (fun x => decide (x ≠ v)) := by
    apply List.filter_congr
    intro x hx
    simp [setMinus, hx]
  apply NXGraph.eq_of_fields
  · simpa [NXGraph.subgraph, NXGraph.removeNode] using hn
  · simp only [NXGraph.subgraph, NXGraph.removeNode]
    rw [hn]
  · rfl

/-- A list of extended integers containing `⊤` sums to `⊤`. -/
theorem list_sum_eq_top {l : List (WithTop ℤ)} (h : ⊤ ∈ l) : l.sum = ⊤ := by
  induction l with
  | nil => cases h
  | cons a t ih =>
    rcases List.mem_cons.mp h with h1 | h2
    · simp [List.sum_cons, ← h1]
    · simp [List.sum_cons, ih h2]

/-- If some enumerated pair of nodes is unreachable, the Wiener index is
infinite. -/
theorem wiener_index_eq_top {g : NXGraph} {weight : Option String}
    (h : ∃ p ∈ listPairs g.nodes, spDist g weight p.1 p.2 = ⊤) :
    nx.wiener_index g weight = ⊤ := by
  obtain ⟨p, hp, hd⟩ := h
  exact list_sum_eq_top (List.mem_map.mpr ⟨p, hp, hd⟩)

/-- The source's recursive call `closeness_vitality(I, v, weight=weight,
wiener_index=wi)` takes the single-node branch and returns the single-node
formula; this justifies inlining it in the all-nodes branch of the
embedding. -/
theorem closeness_vitality_single_call (i : NXGraph) (v : ℕ)
    (weight : Option String) (w : PyFloat) (collect : List ℕ) :
    closeness_vitality (.plain i) (some v) weight (some w) collect =
      .ok (.scalar (PyFloat.sub w (toPyFloat (nx.wiener_index
        (i.subgraph (setMinus i v)) weight)))) := rfl

/-- On an input the adapter recognises, the all-nodes call returns the dict
built from one fixed Wiener value `w` (the caller's, or the one computed once
from the unwrapped graph), shared by every per-node entry. -/
theorem all_nodes_dict_eq (G : PGraph) (g : NXGraph) (weight : Option String)
    (wio : Option PyFloat) (collect : List ℕ) (hG : unwrapI G = some g) :
    ∃ w : PyFloat,
      ((wio = none ∧ w = toPyFloat (nx.wiener_index g weight)) ∨ wio = some w) ∧
      closeness_vitality G none weight wio collect =
        .ok (.dict (collect.map (fun v =>
          (v, PyFloat.sub w (toPyFloat (nx.wiener_index (g.removeNode v) weight)))))) := by
  cases wio with
  | none =>
    refine ⟨toPyFloat (nx.wiener_index g weight), Or.inl ⟨rfl, rfl⟩, ?_⟩
    simp only [closeness_vitality, hG, subgraph_setMinus]
  | some w =>
    refine ⟨w, Or.inr rfl, ?_⟩
    simp only [closeness_vitality, hG, subgraph_setMinus]

/-- The adapter unwraps exactly the graph that the decorator's read
operations act on. -/
theorem unwrap_graphOf {G : PGraph} {g : NXGraph} (h : unwrapI G = some g) :
    PGraph.graphOf G = g := by
  cases G <;> simp_all [unwrapI, PGraph.graphOf]

/-- The adapter leaves `I` unbound exactly on plain inputs. -/
theorem unwrap_none {G : PGraph} (h : unwrapI G = none) :
    ∃ g, G = PGraph.plain g := by
  cases G <;> simp_all [unwrapI]

/-- C1 (code defect): the adapter does NOT pass a plain graph through: for a
non-wrapper input no isinstance branch fires, `I` stays unbound, and both the
default all-nodes call and a single-node call without a precomputed Wiener
index fail with `UnboundLocalError` on `I`. -/
theorem plain_graph_unbound_error :
    closeness_vitality (.plain cycle3) none none none [0, 1, 2] =
        .error .unboundLocalI ∧
    closeness_vitality (.plain cycle3) (some 0) none none [0, 1, 2] =
        .error .unboundLocalI :=
  ⟨rfl, rfl⟩

/-- C2: for every already-unwrapped (plain) graph, every node `v` of it, every
weight attribute and every supplied whole-graph Wiener index value, the
single-node call returns the supplied value minus the Wiener index of the
induced subgraph on `set(G) - {v}`, computed with the same weight
attribute. -/
theorem single_node_returns_wiener_difference (g : NXGraph) (v : ℕ)
    (weight : Option String) (w : PyFloat) (collect : List ℕ)
    (h : v ∈ g.nodes) :
    closeness_vitality (.plain g) (some v) weight (some w) collect =
      .ok (.scalar (PyFloat.sub w
        (toPyFloat (nx.wiener_index (g.removeNode v) weight)))) := by
  rw [← subgraph_setMinus]
  rfl

/-- Witness for C2: the 3-cycle, node 0, the graph's own Wiener index 3;
the call returns 3 - 1 = 2. -/
theorem single_node_returns_wiener_difference_witness :
    (0 : ℕ) ∈ cycle3.nodes ∧
    closeness_vitality (.plain cycle3) (some 0) none (some (.fin 3)) [] =
      .ok (.scalar (PyFloat.sub (.fin 3)
        (toPyFloat (nx.wiener_index (cycle3.removeNode 0) none)))) :=
  ⟨by decide,
    single_node_returns_wiener_difference cycle3 0 none (.fin 3) [] (by decide)⟩

/-- C3 (code defect): wrapping the 3-cycle in any of the four wrapper types
makes the default all-nodes call return the vitality dict, while the same call
on the already-unwrapped plain graph fails with `UnboundLocalError` — the
results are not identical. -/
theorem wrapped_vs_plain_differ :
    closeness_vitality (.parallelMultiDiGraph cycle3) none none none [0, 1, 2] =
        .ok (.dict [(0, .fin 2), (1, .fin 2), (2, .fin 2)]) ∧
    closeness_vitality (.parallelMultiGraph cycle3) none none none [0, 1, 2] =
        .ok (.dict [(0, .fin 2), (1, .fin 2), (2, .fin 2)]) ∧
    closeness_vitality (.parallelDiGraph cycle3) none none none [0, 1, 2] =
        .ok (.dict [(0, .fin 2), (1, .fin 2), (2, .fin 2)]) ∧
    closeness_vitality (.parallelGraph cycle3) none none none [0, 1, 2] =
        .ok (.dict [(0, .fin 2), (1, .fin 2), (2, .fin 2)]) ∧
    closeness_vitality (.plain cycle3) none none none [0, 1, 2] =
        .error .unboundLocalI :=
  ⟨rfl, rfl, rfl, rfl, rfl⟩

/-- C9: the call never mutates its input graph: in the state-passing rendering
of the function, the graph object after the call is the input graph unchanged,
and the result agrees with the pure embedding. -/
theorem input_graph_unchanged (G : PGraph) (node : Option ℕ)
    (weight : Option String) (wiener_index : Option PyFloat) (collect : List ℕ) :
    (closeness_vitality_st G node weight wiener_index collect).1 = G ∧
    (closeness_vitality_st G node weight wiener_index collect).2 =
      closeness_vitality G node weight wiener_index collect := by
  refine ⟨?_, ?_⟩ <;> cases wiener_index <;> cases G <;> cases node <;> rfl

/-- C10: a plain (non-wrapper) graph is accepted exactly when both a node and
a precomputed Wiener index are supplied — that call returns the supplied
scalar minus the Wiener index of the graph with the node removed, touching
only `G` and the supplied value — and every call shape missing either
argument fails with `UnboundLocalError` on the adapter's local `I`. -/
theorem plain_graph_only_full_args (g : NXGraph) (v : ℕ)
    (weight : Option String) (w : PyFloat) (collect : List ℕ) :
    closeness_vitality (.plain g) (some v) weight (some w) collect =
        .ok (.scalar (PyFloat.sub w
          (toPyFloat (nx.wiener_index (g.removeNode v) weight)))) ∧
    (∀ (node : Option ℕ) (wio : Option PyFloat), node = none ∨ wio = none →
        closeness_vitality (.plain g) node weight wio collect =
          .error .unboundLocalI) := by
  constructor
  · rw [← subgraph_setMinus]
    rfl
  · rintro node wio (rfl | rfl)
    · cases wio <;> rfl
    · cases node <;> rfl

/-- Witness for C10: on the 3-cycle with node 0 and Wiener value 3 the call
returns a scalar, and dropping the node (or, symmetrically, the Wiener value)
yields the unbound-local error. -/
theorem plain_graph_only_full_args_witness :
    closeness_vitality (.plain cycle3) (some 0) none (some (.fin 3)) [] =
        .ok (.scalar (PyFloat.sub (.fin 3)
          (toPyFloat (nx.wiener_index (cycle3.removeNode 0) none)))) ∧
    closeness_vitality (.plain cycle3) none none (some (.fin 3)) [] =
        .error .unboundLocalI :=
  ⟨(plain_graph_only_full_args cycle3 0 none (.fin 3) []).1,
    (plain_graph_only_full_args cycle3 0 none (.fin 3) []).2 none
      (some (.fin 3)) (Or.inl rfl)⟩

/-- C4: whenever the all-nodes call returns a mapping and the collection order
is — as the tagged scatter-gather guarantees — a permutation of the graph's
node iteration order, the mapping's keys are exactly the graph's nodes: a
permutation of the node list (no omissions, no extras) with no duplicates,
for every completion order. -/
theorem all_nodes_keys_exact (G : PGraph) (weight : Option String)
    (wio : Option PyFloat) (collect : List ℕ) (m : List (ℕ × PyFloat))
    (hperm : collect.Perm (PGraph.graphOf G).nodes)
    (h : closeness_vitality G none weight wio collect = .ok (.dict m)) :
    (m.map Prod.fst).Perm (PGraph.graphOf G).nodes ∧ (m.map Prod.fst).Nodup := by
  cases hu : unwrapI G with
  | none =>
    obtain ⟨g, rfl⟩ := unwrap_none hu
    cases wio <;> exact Except.noConfusion h
  | some g =>
    obtain ⟨w, _, hcall⟩ := all_nodes_dict_eq G g weight wio collect hu
    rw [hcall] at h
    have hm : m = collect.map (fun v =>
        (v, PyFloat.sub w (toPyFloat (nx.wiener_index (g.removeNode v) weight)))) := by
      injection h with h1
      injection h1 with h2
      exact h2.symm
    have hkeys : m.map Prod.fst = collect := by
      rw [hm, List.map_map]
      exact List.map_id collect
    rw [unwrap_graphOf hu] at hperm
    rw [unwrap_graphOf hu, hkeys]
    exact ⟨hperm, hperm.nodup_iff.mpr g.nodup⟩

/-- Witness for C4: the 3-cycle wrapped in `ParallelGraph`, collected in the
order 2, 0, 1. -/
theorem all_nodes_keys_exact_witness :
    (([(2, PyFloat.fin 2), (0, PyFloat.fin 2), (1, PyFloat.fin 2)].map
        Prod.fst).Perm (PGraph.graphOf (.parallelGraph cycle3)).nodes) ∧
    ([(2, PyFloat.fin 2), (0, PyFloat.fin 2), (1, PyFloat.fin 2)].map
        Prod.fst).Nodup :=
  all_nodes_keys_exact (.parallelGraph cycle3) none none [2, 0, 1]
    [(2, .fin 2), (0, .fin 2), (1, .fin 2)] (by decide) rfl

/-- C5 counterexample: on an already-disconnected graph whose removal of node
0 still leaves unreachable remaining nodes (so the claim's hypothesis holds),
the vitality is NaN (inf - inf in float arithmetic), not negative infinity. -/
theorem disconnected_vitality_nan :
    (∃ p ∈ listPairs ((disc4.removeNode 0).nodes),
        spDist (disc4.removeNode 0) none p.1 p.2 = ⊤) ∧
    closeness_vitality (.parallelGraph disc4) (some 0) none none [0, 1, 2, 3] =
      .ok (.scalar PyFloat.nan) ∧
    PyFloat.nan ≠ PyFloat.ninf :=
  ⟨⟨(1, 2), by decide, by decide⟩, rfl, by decide⟩

/-- C5 (amended): when the whole graph's Wiener index is finite (the graph is
connected) and removing `v` leaves some pair of remaining nodes with no path,
the vitality returned for `v` is negative infinity — a defined numeric
result, not an error. -/
theorem vitality_ninf_of_disconnecting (g : NXGraph) (v : ℕ)
    (weight : Option String) (collect : List ℕ) (q : ℤ)
    (hfin : nx.wiener_index g weight = ((q : ℤ) : WithTop ℤ))
    (hdisc : ∃ p ∈ listPairs ((g.removeNode v).nodes),
        spDist (g.removeNode v) weight p.1 p.2 = ⊤) :
    closeness_vitality (.parallelGraph g) (some v) weight none collect =
      .ok (.scalar PyFloat.ninf) := by
  have h1 : closeness_vitality (.parallelGraph g) (some v) weight none collect =
      .ok (.scalar (PyFloat.sub (toPyFloat (nx.wiener_index g weight))
        (toPyFloat (nx.wiener_index (g.subgraph (setMinus g v)) weight)))) := rfl
  rw [h1, subgraph_setMinus, hfin, wiener_index_eq_top hdisc]
  rfl

/-- Witness for C5 (amended): the 3-path 0-1-2 (Wiener index 4) with its
middle node removed. -/
theorem vitality_ninf_of_disconnecting_witness :
    nx.wiener_index path3 none = ((4 : ℤ) : WithTop ℤ) ∧
    (∃ p ∈ listPairs ((path3.removeNode 1).nodes),
        spDist (path3.removeNode 1) none p.1 p.2 = ⊤) ∧
    closeness_vitality (.parallelGraph path3) (some 1) none none [] =
      .ok (.scalar PyFloat.ninf) :=
  ⟨by decide, ⟨(0, 2), by decide, by decide⟩,
    vitality_ninf_of_disconnecting path3 1 none [] 4 (by decide)
      ⟨(0, 2), by decide, by decide⟩⟩

/-- C6 counterexample: on a plain input, a single-node call supplying the
graph's freshly computed Wiener index succeeds, while the same call omitting
it raises `UnboundLocalError` — the results are not identical. -/
theorem precomputed_vs_omitted_differ_on_plain :
    closeness_vitality (.plain cycle3) (some 0) none
        (some (toPyFloat (nx.wiener_index cycle3 none))) [] ≠
      closeness_vitality (.plain cycle3) (some 0) none none [] :=
  fun h => Except.noConfusion h

/-- C6 (amended): for every input the adapter recognises (any of the four
wrapper types) and every node/weight choice, supplying `wiener_index` equal to
the freshly computed Wiener index of the unwrapped graph yields a result
identical to omitting it; on a plain input the omitted-index call instead
fails with `UnboundLocalError` (the adapter defect). -/
theorem precomputed_wiener_identical (G : PGraph) (g : NXGraph)
    (node : Option ℕ) (weight : Option String) (collect : List ℕ)
    (hG : unwrapI G = some g) :
    closeness_vitality G node weight
        (some (toPyFloat (nx.wiener_index g weight))) collect =
      closeness_vitality G node weight none collect := by
  simp only [closeness_vitality, hG]

/-- Witness for C6 (amended): the 3-cycle wrapped in `ParallelDiGraph`. -/
theorem precomputed_wiener_identical_witness :
    closeness_vitality (.parallelDiGraph cycle3) none none
        (some (toPyFloat (nx.wiener_index cycle3 none))) [0, 1, 2] =
      closeness_vitality (.parallelDiGraph cycle3) none none none [0, 1, 2] :=
  precomputed_wiener_identical (.parallelDiGraph cycle3) cycle3 none none
    [0, 1, 2] rfl

/-- C7: in every all-nodes call on an input the adapter recognises, one fixed
Wiener value `w` — the caller's, or else computed exactly once from the
unwrapped graph — is shared read-only by every per-node entry, and each entry
equals the recursive per-node call made with that same `w` supplied, whose
body subtracts only the subgraph Wiener index (never recomputing the
whole-graph one). -/
theorem wiener_shared_across_tasks (G : PGraph) (g : NXGraph)
    (weight : Option String) (wio : Option PyFloat) (collect : List ℕ)
    (hG : unwrapI G = some g) :
    ∃ w : PyFloat,
      ((wio = none ∧ w = toPyFloat (nx.wiener_index g weight)) ∨ wio = some w) ∧
      closeness_vitality G none weight wio collect =
        .ok (.dict (collect.map (fun v =>
          (v, PyFloat.sub w
            (toPyFloat (nx.wiener_index (g.removeNode v) weight)))))) ∧
      (∀ v : ℕ, closeness_vitality (.plain g) (some v) weight (some w) collect =
        .ok (.scalar (PyFloat.sub w
          (toPyFloat (nx.wiener_index (g.removeNode v) weight))))) := by
  obtain ⟨w, hw, hcall⟩ := all_nodes_dict_eq G g weight wio collect hG
  refine ⟨w, hw, hcall, fun v => ?_⟩
  rw [← subgraph_setMinus]
  rfl

/-- Witness for C7: the 3-cycle wrapped in `ParallelMultiGraph`, Wiener index
computed in the call. -/
theorem wiener_shared_across_tasks_witness :
    ∃ w : PyFloat,
      (((none : Option PyFloat) = none ∧
          w = toPyFloat (nx.wiener_index cycle3 none)) ∨
        (none : Option PyFloat) = some w) ∧
      closeness_vitality (.parallelMultiGraph cycle3) none none none [0, 1, 2] =
        .ok (.dict ([0, 1, 2].map (fun v =>
          (v, PyFloat.sub w
            (toPyFloat (nx.wiener_index (cycle3.removeNode v) none)))))) ∧
      (∀ v : ℕ, closeness_vitality (.plain cycle3) (some v) none (some w) [0, 1, 2] =
        .ok (.scalar (PyFloat.sub w
          (toPyFloat (nx.wiener_index (cycle3.removeNode v) none))))) :=
  wiener_shared_across_tasks (.parallelMultiGraph cycle3) cycle3 none none
    [0, 1, 2] rfl

/-- C8: for the unweighted 3-cycle, the all-nodes call returns a mapping
giving every one of the three nodes vitality exactly 2.0, whatever the
completion order. -/
theorem cycle3_all_vitalities_two (collect : List ℕ)
    (hperm : collect.Perm [0, 1, 2]) :
    closeness_vitality (.parallelGraph cycle3) none none none collect =
      .ok (.dict (collect.map (fun v => (v, PyFloat.fin 2)))) := by
  have h0 : closeness_vitality (.parallelGraph cycle3) none none none collect =
      .ok (.dict (collect.map (fun v =>
        (v, PyFloat.sub (toPyFloat (nx.wiener_index cycle3 none))
          (toPyFloat (nx.wiener_index
            (cycle3.subgraph (setMinus cycle3 v)) none)))))) := rfl
  rw [h0]
  refine congrArg (fun l => Except.ok (CVResult.dict l)) ?_
  apply List.map_congr_left
  intro v hv
  have hv3 : v ∈ [0, 1, 2] := hperm.subset hv
  fin_cases hv3 <;> rfl

/-- Witness for C8: collection in iteration order. -/
theorem cycle3_all_vitalities_two_witness :
    ([0, 1, 2] : List ℕ).Perm [0, 1, 2] ∧
    closeness_vitality (.parallelGraph cycle3) none none none [0, 1, 2] =
      .ok (.dict ([0, 1, 2].map (fun v => (v, PyFloat.fin 2)))) :=
  ⟨List.Perm.refl _, cycle3_all_vitalities_two [0, 1, 2] (List.Perm.refl _)⟩
